import Mathlib

/-!
# Verification of `nucypher/utilities/concurrency.py`

A shallow embedding of the `SetOnce` latch and the `WorkerPool` coordinator
from `src/nucypher/utilities/concurrency.py`, together with theorems that
settle the specification claims about them.

Modelling conventions:
* Python `dict` becomes an insertion-ordered association list with
  overwrite-in-place semantics (`dinsert`); `len` becomes `List.length`.
* A blocking call is modelled as an `Option`-returning function: `none`
  means the call does not return in the given state (it blocks on an event
  that is not set), `some` carries the returned value and the new state.
* The concurrent run of a pool is a labelled transition system `Step` over
  `PoolState`; each constructor mirrors one atomic action of one of the
  threads (producer, worker wrapper, result processor, timeout thread).
* Machine integers need no truncation here: Python integers are unbounded,
  so counters are `Nat` and `target_successes` is `Int` (it may be
  negative or zero, the constructor does not validate it).
-/

set_option autoImplicit false

namespace Concurrency

/-! ## `SetOnce` (lines 43-72 of `concurrency.py`)

The Python class holds `_value` (initially `None`) and `_set_event`.
`set` stores the value and sets the event only when the event is unset;
`get` waits on the event and returns `_value`; `get_and_clear` takes the
lock, reads `_value`, resets both fields and returns — it contains no
`wait()`, so it returns in every state, settled or not. -/

structure SetOnce (α : Type) where
  value : Option α
  setEvent : Bool
  deriving Repr, DecidableEq

namespace SetOnce

/-- `SetOnce.__init__`: `_value = None`, event unset. -/
def init {α : Type} : SetOnce α := ⟨none, false⟩

/-- `SetOnce.set`: under the lock, if the event is not set, store the value
and set the event; otherwise do nothing. -/
def set {α : Type} (s : SetOnce α) (v : α) : SetOnce α :=
  if s.setEvent then s else ⟨some v, true⟩

/-- `SetOnce.is_set`. -/
def isSet {α : Type} (s : SetOnce α) : Bool := s.setEvent

/-- `SetOnce.get`: `self._set_event.wait()` then return `_value`.
`none` models the call blocking (the event is unset); `some w` models the
call returning the slot content `w`. -/
def get {α : Type} (s : SetOnce α) : Option (Option α) :=
  if s.setEvent then some s.value else none

/-- `SetOnce.get_and_clear`: under the lock, read `_value`, reset the slot
to `None`, clear the event, and return the read value.  The source has no
`wait()` here, so the call returns unconditionally. -/
def getAndClear {α : Type} (s : SetOnce α) : Option α × SetOnce α :=
  (s.value, ⟨none, false⟩)

end SetOnce

end Concurrency

namespace Concurrency

/-! ### Claims about `SetOnce` -/

/-- **C9.** After `set v` on an unsettled latch, `is_set()` is true and
`get()` returns `v` without blocking; any later `set w` while settled is a
no-op, leaving the stored value and the settled flag unchanged. -/
theorem setOnce_first_set_wins {α : Type} (s : SetOnce α) (v w : α)
    (h : s.isSet = false) :
    (s.set v).isSet = true ∧ (s.set v).get = some (some v) ∧
      (s.set v).set w = s.set v := by
  simp only [SetOnce.isSet] at h
  simp [SetOnce.set, SetOnce.isSet, SetOnce.get, h]

theorem setOnce_first_set_wins_witness :
    (SetOnce.init : SetOnce Nat).isSet = false ∧
      ((SetOnce.init : SetOnce Nat).set 1).isSet = true ∧
      ((SetOnce.init : SetOnce Nat).set 1).get = some (some 1) ∧
      ((SetOnce.init : SetOnce Nat).set 1).set 2 = SetOnce.init.set 1 := by
  refine ⟨rfl, ?_⟩
  exact setOnce_first_set_wins SetOnce.init 1 2 rfl

/-- **C3, counterexample.** The claim says `get_and_clear()` blocks until
the latch is settled and never returns while it is unset.  In the source,
`get_and_clear` contains no wait: on the freshly initialised (unset) latch
it returns at once, yielding the empty slot `none` — a value never stored
by any `set`. -/
theorem setOnce_getAndClear_returns_while_unset :
    (SetOnce.init : SetOnce Nat).isSet = false ∧
      (SetOnce.init : SetOnce Nat).getAndClear = (none, SetOnce.init) := by
  exact ⟨rfl, rfl⟩

/-- **C3, amended.** `get_and_clear()` does not block: in every state it
returns the current content of the value slot (the value stored by the
first `set` when the latch is settled by it, `none` when unset) and
atomically clears both the value slot and the settled flag. -/
theorem setOnce_getAndClear_clears {α : Type} (s : SetOnce α) (v : α)
    (h : s.isSet = false) :
    s.getAndClear = (s.value, SetOnce.init) ∧
      (s.set v).getAndClear = (some v, SetOnce.init) := by
  simp only [SetOnce.isSet] at h
  constructor
  · rfl
  · simp [SetOnce.set, SetOnce.getAndClear, h, SetOnce.init]

theorem setOnce_getAndClear_clears_witness :
    ((SetOnce.init : SetOnce Nat).getAndClear = (none, SetOnce.init) ∧
      ((SetOnce.init : SetOnce Nat).set 7).getAndClear
        = (some 7, SetOnce.init)) :=
  setOnce_getAndClear_clears SetOnce.init 7 rfl

end Concurrency

namespace Concurrency

/-! ## Python `dict` as an insertion-ordered association list

`d[k] = v` keeps the position of an existing key and overwrites its value,
or appends a fresh pair at the end; `len(d)` is the number of entries. -/

/-- `d[k] = v` on a Python dict: overwrite in place, or append. -/
def dinsert {V R : Type} [DecidableEq V]
    (m : List (V × R)) (k : V) (v : R) : List (V × R) :=
  if (m.lookup k).isSome then
    m.map (fun p => if p.1 = k then (k, v) else p)
  else
    m ++ [(k, v)]

theorem dinsert_length {V R : Type} [DecidableEq V]
    (m : List (V × R)) (k : V) (v : R) :
    (dinsert m k v).length = m.length ∨
      (dinsert m k v).length = m.length + 1 := by
  unfold dinsert
  by_cases h : (m.lookup k).isSome
  · left; simp [h]
  · right; simp [h]

theorem dinsert_length_pos {V R : Type} [DecidableEq V]
    (m : List (V × R)) (k : V) (v : R) : 1 ≤ (dinsert m k v).length := by
  unfold dinsert
  by_cases h : (m.lookup k).isSome
  · simp only [h, if_true, List.length_map]
    match m, h with
    | p :: t, _ => simp
  · simp [h]

theorem dinsert_le_length {V R : Type} [DecidableEq V]
    (m : List (V × R)) (k : V) (v : R) :
    m.length ≤ (dinsert m k v).length := by
  rcases dinsert_length m k v with h | h <;> omega

theorem dinsert_fresh {V R : Type} [DecidableEq V]
    (m : List (V × R)) (k : V) (v : R) (h : m.lookup k = none) :
    dinsert m k v = m ++ [(k, v)] := by
  unfold dinsert
  simp [h]

/-! ## Outcomes and the terminal value

`Success` / `Failure` (lines 28-36), the `Cancelled` exception object that
the wrapper may post (line 225), and the `PRODUCER_STOPPED` sentinel that
the producer posts on the result queue (line 287). -/

inductive Outcome (V R : Type) where
  | success : V → R → Outcome V R
  | failure : V → String → Outcome V R
  | cancelled : Outcome V R
  | producerStopped : Outcome V R
  deriving Repr, DecidableEq

/-- Whether an outcome is the `PRODUCER_STOPPED` sentinel
(`result == PRODUCER_STOPPED`, line 239). -/
def Outcome.isSentinel {V R : Type} : Outcome V R → Bool
  | .producerStopped => true
  | _ => false

/-- Whether an outcome is a `Failure` (`isinstance(result, Failure)`). -/
def Outcome.isFailure {V R : Type} : Outcome V R → Bool
  | .failure _ _ => true
  | _ => false

/-- The value the terminal latch `_target_value` can be settled with:
a snapshot of the success dict (line 251), `TIMEOUT_TRIGGERED` (line 210),
or `PRODUCER_STOPPED` (line 258). -/
inductive TerminalValue (V R : Type) where
  | snapshot : List (V × R) → TerminalValue V R
  | timeoutTriggered : TerminalValue V R
  | producerStopped : TerminalValue V R
  deriving Repr, DecidableEq

/-! ## Pool state

One record gathers the fields of `WorkerPool.__init__` (lines 117-127),
the local variables of `_process_results` (lines 234-235), and the control
points of the four kinds of threads needed to express the claims:
`pending` is the bag of values submitted to the thread pool whose wrapper
has not yet posted its outcome, and the `…Done` flags record which service
threads have exited. -/

structure PoolState (V R : Type) where
  successes : List (V × R)
  failures : List (V × String)
  startedTasks : Nat
  finishedTasks : Nat
  cancelEvent : Bool
  resultQueue : List (Outcome V R)
  targetValue : SetOnce (TerminalValue V R)
  unexpectedError : SetOnce String
  stopped : Bool
  producerStoppedFlag : Bool
  successEventReached : Bool
  pending : List V
  producerLoopDone : Bool
  producerDone : Bool
  processorDone : Bool
  timeoutDone : Bool
  deriving Repr, DecidableEq

namespace PoolState

/-- The state right after `WorkerPool.__init__`.  The constructor performs
no validation: it is defined for every `target_successes : Int`, every
timeout, etc.; none of those figure in the state beyond being stored. -/
def initState {V R : Type} : PoolState V R where
  successes := []
  failures := []
  startedTasks := 0
  finishedTasks := 0
  cancelEvent := false
  resultQueue := []
  targetValue := SetOnce.init
  unexpectedError := SetOnce.init
  stopped := false
  producerStoppedFlag := false
  successEventReached := false
  pending := []
  producerLoopDone := false
  producerDone := false
  processorDone := false
  timeoutDone := false

end PoolState

/-- `WorkerPool.get_successes` (lines 198-203): a snapshot of the success
dict taken under the results lock. -/
def getSuccesses {V R : Type} (s : PoolState V R) : List (V × R) :=
  s.successes

/-- `WorkerPool.get_failures` (lines 191-196): a snapshot of the failure
dict taken under the results lock. -/
def getFailures {V R : Type} (s : PoolState V R) : List (V × String) :=
  s.failures

end Concurrency

namespace Concurrency

/-! ## The worker wrapper (`_worker_wrapper`, lines 213-227)

The worker is an opaque Python callable: an invocation either returns a
result, raises the module's `Cancelled` exception, or raises some other
`BaseException` captured by its printable representation `str(e)`. -/

inductive WorkerErr where
  | cancelled : WorkerErr
  | other : String → WorkerErr
  deriving Repr, DecidableEq

/-- `_worker_wrapper(value)`: `_sleep(0)` raises `Cancelled` when the
cancel event is set, which is caught and posted; otherwise the worker runs
and its return, its `Cancelled`, or the string form of any other raised
error is posted.  The function is total: no exception escapes. -/
def workerWrapper {V R : Type} (cancelSet : Bool) (value : V)
    (call : Except WorkerErr R) : Outcome V R :=
  if cancelSet then .cancelled
  else
    match call with
    | .ok r => .success value r
    | .error .cancelled => .cancelled
    | .error (.other e) => .failure value e

/-- The queue effect of one `_worker_wrapper` invocation: exactly one
`put` on the result queue. -/
def runWrapper {V R : Type} (q : List (Outcome V R)) (cancelSet : Bool)
    (value : V) (call : Except WorkerErr R) : List (Outcome V R) :=
  q ++ [workerWrapper cancelSet value call]

/-! ## The result processor (`_process_results`, lines 229-259) -/

/-- The drain check at lines 256-259: when the sentinel has been seen and
`finished == started`, cancel the pool, settle the latch with
`PRODUCER_STOPPED`, and leave the processing loop. -/
def checkDrain {V R : Type} (s : PoolState V R) : PoolState V R :=
  if s.producerStoppedFlag ∧ s.finishedTasks = s.startedTasks then
    { s with cancelEvent := true,
             targetValue := s.targetValue.set .producerStopped,
             processorDone := true }
  else s

/-- The body of the `_process_results` loop for one dequeued result
(lines 237-259), applied to the state after the result was removed from
the queue. -/
def processResult {V R : Type} [DecidableEq V] (target : Int)
    (s : PoolState V R) (result : Outcome V R) : PoolState V R :=
  match result with
  | .producerStopped =>
      checkDrain { s with producerStoppedFlag := true }
  | .success v r =>
      let succ := dinsert s.successes v r
      let s1 : PoolState V R :=
        { s with successes := succ, finishedTasks := s.finishedTasks + 1 }
      let s2 : PoolState V R :=
        if ¬ s1.successEventReached ∧ (succ.length : Int) = target then
          { s1 with successEventReached := true,
                    targetValue := s1.targetValue.set (.snapshot succ) }
        else s1
      checkDrain s2
  | .failure v e =>
      checkDrain
        { s with failures := dinsert s.failures v e,
                 finishedTasks := s.finishedTasks + 1 }
  | .cancelled =>
      checkDrain { s with finishedTasks := s.finishedTasks + 1 }

/-! ## The atomic actions of the other threads -/

/-- Producer loop body, success path (lines 263-277): a non-empty batch is
obtained from the factory, `started_tasks` grows by its size and every
value is submitted to the thread pool. -/
def produceStep {V R : Type} (batch : List V) (s : PoolState V R) :
    PoolState V R :=
  { s with startedTasks := s.startedTasks + batch.length,
           pending := s.pending ++ batch }

/-- Producer loop exit without error (empty batch at line 267, or
`Cancelled` raised during the stagger sleep, line 279). -/
def producerExitStep {V R : Type} (s : PoolState V R) : PoolState V R :=
  { s with producerLoopDone := true }

/-- Producer loop exit on an unexpected error (lines 282-285): the error
is latched into `_unexpected_error`, `cancel()` is called, the loop ends. -/
def producerErrorStep {V R : Type} (e : String) (s : PoolState V R) :
    PoolState V R :=
  { s with unexpectedError := s.unexpectedError.set e,
           cancelEvent := true,
           producerLoopDone := true }

/-- The producer posts the `PRODUCER_STOPPED` sentinel after leaving its
loop (line 287) and the producer thread exits. -/
def postSentinelStep {V R : Type} (s : PoolState V R) : PoolState V R :=
  { s with resultQueue := s.resultQueue ++ [Outcome.producerStopped],
           producerDone := true }

/-- One pending wrapper invocation completes and posts its single outcome
on the result queue. -/
def workerCompleteStep {V R : Type} (l1 l2 : List V) (o : Outcome V R)
    (s : PoolState V R) : PoolState V R :=
  { s with pending := l1 ++ l2, resultQueue := s.resultQueue ++ [o] }

/-- `_bail_on_timeout` (lines 205-211), firing branch: the wait on the
cancel event timed out, so the latch is settled with `TIMEOUT_TRIGGERED`
and the cancel event is set; the thread exits. -/
def timeoutFiresStep {V R : Type} (s : PoolState V R) : PoolState V R :=
  { s with targetValue := s.targetValue.set .timeoutTriggered,
           cancelEvent := true,
           timeoutDone := true }

/-- `_bail_on_timeout`, cancelled branch: the cancel event was observed
set, the thread exits (its final `cancel_event.set()` is a no-op then). -/
def timeoutObservesCancelStep {V R : Type} (s : PoolState V R) :
    PoolState V R :=
  { s with timeoutDone := true }

/-- `WorkerPool.cancel` (lines 136-140). -/
def cancelStep {V R : Type} (s : PoolState V R) : PoolState V R :=
  { s with cancelEvent := true }

/-- An outcome a wrapper invocation for value `v` can post: a success or a
failure keyed by `v`, or the `Cancelled` object.  The worker callable is
opaque (it may be stateful or nondeterministic), so the result and the
error text are unconstrained. -/
def outcomeForValue {V R : Type} (v : V) : Outcome V R → Prop
  | .success w _ => w = v
  | .failure w _ => w = v
  | .cancelled => True
  | .producerStopped => False

/-- The labelled transition system of one pool run: each constructor is one
atomic action of one thread of `WorkerPool`, guarded by that thread's
control state. -/
inductive Step {V R : Type} [DecidableEq V] (target : Int) :
    PoolState V R → PoolState V R → Prop where
  | produce (s : PoolState V R) (batch : List V)
      (hb : batch ≠ []) (h : s.producerLoopDone = false) :
      Step target s (produceStep batch s)
  | producerExit (s : PoolState V R) (h : s.producerLoopDone = false) :
      Step target s (producerExitStep s)
  | producerError (s : PoolState V R) (e : String)
      (h : s.producerLoopDone = false) :
      Step target s (producerErrorStep e s)
  | postSentinel (s : PoolState V R) (h : s.producerLoopDone = true)
      (h2 : s.producerDone = false) :
      Step target s (postSentinelStep s)
  | workerComplete (s : PoolState V R) (l1 l2 : List V) (v : V)
      (o : Outcome V R) (hp : s.pending = l1 ++ v :: l2)
      (ho : outcomeForValue v o) :
      Step target s (workerCompleteStep l1 l2 o s)
  | processOne (s : PoolState V R) (r : Outcome V R)
      (rest : List (Outcome V R)) (hq : s.resultQueue = r :: rest)
      (h : s.processorDone = false) :
      Step target s (processResult target { s with resultQueue := rest } r)
  | timeoutFires (s : PoolState V R) (h : s.cancelEvent = false)
      (h2 : s.timeoutDone = false) :
      Step target s (timeoutFiresStep s)
  | timeoutObservesCancel (s : PoolState V R) (h : s.cancelEvent = true)
      (h2 : s.timeoutDone = false) :
      Step target s (timeoutObservesCancelStep s)
  | cancelCall (s : PoolState V R) :
      Step target s (cancelStep s)

/-- The states a pool run can reach from the freshly constructed state. -/
inductive Reachable {V R : Type} [DecidableEq V] (target : Int) :
    PoolState V R → Prop where
  | init : Reachable target PoolState.initState
  | step {s t : PoolState V R} : Reachable target s → Step target s t →
      Reachable target t

end Concurrency

namespace Concurrency

/-! ## The public blocking methods -/

/-- What a call of `block_until_target_successes` does when it returns:
it returns a dict (`returned`), raises `WorkerPool.TimedOut`
(`timedOut`), raises `WorkerPool.OutOfValues` (`outOfValues`), or raises
the wrapping `RuntimeError` carrying the latched producer error
(`runtimeError`). -/
inductive BlockResult (V R : Type) where
  | returned : Option (List (V × R)) → BlockResult V R
  | timedOut : BlockResult V R
  | outOfValues : BlockResult V R
  | runtimeError : Option String → BlockResult V R
  deriving Repr, DecidableEq

/-- `WorkerPool.block_until_target_successes` (lines 173-189).  First the
unexpected-error latch is consulted: if set, its value is consumed with
`get_and_clear` and raised wrapped in a `RuntimeError`.  Otherwise the
call blocks on `_target_value.get()` (`none` while the latch is unset) and
translates the settled value: `TIMEOUT_TRIGGERED` raises `TimedOut`,
`PRODUCER_STOPPED` raises `OutOfValues`, anything else is returned. -/
def blockUntilTargetSuccesses {V R : Type} (s : PoolState V R) :
    Option (BlockResult V R × PoolState V R) :=
  if s.unexpectedError.isSet then
    some (.runtimeError (s.unexpectedError.getAndClear).1,
          { s with unexpectedError := (s.unexpectedError.getAndClear).2 })
  else
    match s.targetValue.get with
    | none => none
    | some (some .timeoutTriggered) => some (.timedOut, s)
    | some (some .producerStopped) => some (.outOfValues, s)
    | some (some (.snapshot m)) => some (.returned (some m), s)
    | some none => some (.returned none, s)

/-- `WorkerPool.join` (lines 142-164).  A second call returns immediately
(`_stopped` is set).  Otherwise the call blocks until the three service
threads have exited (`none` while they have not), marks the pool stopped,
and — after that — raises the wrapped unexpected error if the latch is
set, reading it with `get()` (which does not clear it).  The returned
first component is `some e` when the call raises, `none` when it returns
normally. -/
def joinPool {V R : Type} (s : PoolState V R) :
    Option (Option (Option String) × PoolState V R) :=
  if s.stopped then some (none, s)
  else if s.producerDone ∧ s.processorDone ∧ s.timeoutDone then
    let s2 : PoolState V R := { s with stopped := true }
    if s2.unexpectedError.isSet then some (some s2.unexpectedError.value, s2)
    else some (none, s2)
  else none

end Concurrency

namespace Concurrency

/-! ### Claims about the worker wrapper -/

/-- **C6, counterexample.** The claim says the wrapper posts `Failure` on
a raised error.  When the worker invocation raises the module's
`Cancelled` exception (with the cancel event unset), the wrapper's
`except Cancelled` clause at line 224 catches it first and posts the
exception object itself — a `Cancelled` outcome, not a `Failure`. -/
theorem workerWrapper_cancelled_error_not_failure :
    workerWrapper (V := Nat) (R := Nat) false 7
        (Except.error WorkerErr.cancelled) = Outcome.cancelled ∧
      (workerWrapper (V := Nat) (R := Nat) false 7
        (Except.error WorkerErr.cancelled)).isFailure = false := by
  exact ⟨rfl, rfl⟩

/-- **C6, amended.** Every `_worker_wrapper(value)` invocation enqueues
exactly one outcome on the result queue: `Cancelled` when the cancel event
is observed set before any work, `Success` with the worker's return value
on normal return, `Failure` with the printable error on a raised error
other than `Cancelled`, and `Cancelled` when the raised error is the
module's `Cancelled` exception; being a total function into outcomes, the
wrapper lets no exception escape. -/
theorem workerWrapper_one_outcome {V R : Type}
    (q : List (Outcome V R)) (cancelSet : Bool) (value : V)
    (call : Except WorkerErr R) :
    runWrapper q cancelSet value call
        = q ++ [workerWrapper cancelSet value call] ∧
      workerWrapper cancelSet value call
        = (if cancelSet then Outcome.cancelled
           else
             match call with
             | .ok r => Outcome.success value r
             | .error .cancelled => Outcome.cancelled
             | .error (.other e) => Outcome.failure value e) := by
  exact ⟨rfl, rfl⟩

/-- **C5, counterexample.** The claim says that for every worker
invocation that raises an error, the wrapper posts a `Failure` carrying
the input value and the error text.  A worker invocation that raises the
module's `Cancelled` exception is caught by the `except Cancelled` clause:
the posted outcome is `Cancelled`, the failure dict stays empty after the
processor handles it, and nothing is filed under the input value `3`. -/
theorem worker_error_cancelled_not_filed :
    workerWrapper (V := Nat) (R := Nat) false 3
        (Except.error WorkerErr.cancelled) = Outcome.cancelled ∧
      (processResult 5 (PoolState.initState (V := Nat) (R := Nat))
        Outcome.cancelled).failures = [] := by
  exact ⟨rfl, rfl⟩

/-- **C5, amended.** For every worker invocation that raises an error
other than the module's `Cancelled` exception, the wrapper posts
`Failure(value, str(e))`; the result processor files the representation in
the failure dict keyed by the input value and leaves the success dict
untouched; and the raised error never settles the terminal latch or
terminates the processing loop — unless that failure is the last
outstanding outcome after producer exhaustion, in which case the ordinary
drain rule settles the latch with `PRODUCER_STOPPED` (never with the
error). -/
theorem worker_failure_filed {V R : Type} [DecidableEq V] (target : Int)
    (s : PoolState V R) (v : V) (e : String)
    (hnd : ¬ (s.producerStoppedFlag = true ∧
              s.finishedTasks + 1 = s.startedTasks)) :
    workerWrapper (V := V) (R := R) false v
          (Except.error (WorkerErr.other e))
        = Outcome.failure v e ∧
      (processResult target s (Outcome.failure v e)).failures
        = dinsert s.failures v e ∧
      (processResult target s (Outcome.failure v e)).successes
        = s.successes ∧
      (processResult target s (Outcome.failure v e)).targetValue
        = s.targetValue ∧
      (processResult target s (Outcome.failure v e)).processorDone
        = s.processorDone := by
  refine ⟨rfl, ?_, ?_, ?_, ?_⟩ <;>
    · simp only [processResult, checkDrain]
      by_cases hf : s.producerStoppedFlag = true ∧
          s.finishedTasks + 1 = s.startedTasks
      · exact absurd hf hnd
      · simp only [hf]
        simp

theorem worker_failure_filed_witness :
    (¬ ((PoolState.initState (V := Nat) (R := Nat)).producerStoppedFlag
          = true ∧
        (PoolState.initState (V := Nat) (R := Nat)).finishedTasks + 1
          = (PoolState.initState (V := Nat) (R := Nat)).startedTasks)) ∧
      workerWrapper (V := Nat) (R := Nat) false 4
          (Except.error (WorkerErr.other "boom")) = Outcome.failure 4 "boom" ∧
      (processResult 2 (PoolState.initState (V := Nat) (R := Nat))
          (Outcome.failure 4 "boom")).failures
        = dinsert [] 4 "boom" ∧
      (processResult 2 (PoolState.initState (V := Nat) (R := Nat))
          (Outcome.failure 4 "boom")).successes
        = (PoolState.initState (V := Nat) (R := Nat)).successes ∧
      (processResult 2 (PoolState.initState (V := Nat) (R := Nat))
          (Outcome.failure 4 "boom")).targetValue
        = (PoolState.initState (V := Nat) (R := Nat)).targetValue ∧
      (processResult 2 (PoolState.initState (V := Nat) (R := Nat))
          (Outcome.failure 4 "boom")).processorDone
        = (PoolState.initState (V := Nat) (R := Nat)).processorDone := by
  refine ⟨by decide, ?_⟩
  exact worker_failure_filed 2 PoolState.initState 4 "boom" (by decide)

end Concurrency

namespace Concurrency

/-! ### Claims about `block_until_target_successes` and `join`

A run in which the timeout fires and the producer then hits an unexpected
error (the factory raises while the cancel flag is already set) leaves
both the terminal latch and the error latch settled. -/

/-- Timeout fires on the fresh pool: latch settles with
`TIMEOUT_TRIGGERED`, cancel is set. -/
def timeoutThenErrorMid : PoolState Nat Nat :=
  timeoutFiresStep PoolState.initState

/-- The producer, mid-iteration when the timeout fired, hits an unexpected
error: the error latch settles too. -/
def timeoutThenErrorEnd : PoolState Nat Nat :=
  producerErrorStep "boom" timeoutThenErrorMid

/-- `timeoutThenErrorEnd` with the error latch consumed, as
`block_until_target_successes` leaves it. -/
def timeoutThenErrorCleared : PoolState Nat Nat :=
  { timeoutThenErrorEnd with unexpectedError := SetOnce.init }

/-- **C1, counterexample.** The claim says `block_until_target_successes`
raises `TimedOut` exactly when the latch was settled with the
`TIMEOUT_TRIGGERED` marker.  In the reachable state where the timeout
fired and the producer then latched an unexpected error, the latch holds
`TIMEOUT_TRIGGERED`, yet the call raises the wrapping `RuntimeError`
(lines 179-182 run before the latch is consulted), not `TimedOut`. -/
theorem block_shadowed_by_unexpected_error :
    Reachable 1 timeoutThenErrorEnd ∧
      timeoutThenErrorEnd.targetValue.value
        = some TerminalValue.timeoutTriggered ∧
      blockUntilTargetSuccesses timeoutThenErrorEnd
        = some (.runtimeError (some "boom"), timeoutThenErrorCleared) ∧
      blockUntilTargetSuccesses timeoutThenErrorEnd
        ≠ some (.timedOut, timeoutThenErrorEnd) := by
  refine ⟨?_, by decide, by decide, by decide⟩
  exact Reachable.step
    (Reachable.step Reachable.init (Step.timeoutFires _ rfl rfl))
    (Step.producerError _ "boom" rfl)

/-- **C1, amended.** Provided no producer-side unexpected error is
pending, `block_until_target_successes()` blocks exactly while the
terminal latch is unsettled and then translates the settled value: it
returns the stored success-dict snapshot when the latch was settled with a
snapshot, raises `TimedOut` when it was settled with `TIMEOUT_TRIGGERED`,
and raises `OutOfValues` when it was settled with `PRODUCER_STOPPED`.
When an unexpected error is pending, the call instead raises it wrapped in
a `RuntimeError` without consulting the latch, consuming the error latch. -/
theorem block_translates_latch {V R : Type} (s : PoolState V R) :
    (s.unexpectedError.isSet = false →
      (blockUntilTargetSuccesses s = none ↔ s.targetValue.isSet = false) ∧
      (∀ m : List (V × R), s.targetValue.value = some (.snapshot m) →
        s.targetValue.isSet = true →
        blockUntilTargetSuccesses s = some (.returned (some m), s)) ∧
      (blockUntilTargetSuccesses s = some (.timedOut, s) ↔
        (s.targetValue.isSet = true ∧
          s.targetValue.value = some .timeoutTriggered)) ∧
      (blockUntilTargetSuccesses s = some (.outOfValues, s) ↔
        (s.targetValue.isSet = true ∧
          s.targetValue.value = some .producerStopped))) ∧
    (s.unexpectedError.isSet = true →
      blockUntilTargetSuccesses s
          = some (.runtimeError s.unexpectedError.value,
                  { s with unexpectedError := SetOnce.init }) ∧
        ({ s with unexpectedError := SetOnce.init }
          : PoolState V R).unexpectedError.isSet = false) := by
  obtain ⟨successes, failures, started, finished, cancel, q, tv, ue,
    stopped, psf, ser, pending, pld, pd, prd, td⟩ := s
  obtain ⟨tval, tev⟩ := tv
  obtain ⟨uval, uev⟩ := ue
  constructor
  · intro hne
    simp only [SetOnce.isSet] at hne
    subst hne
    cases tev with
    | false =>
        refine ⟨by simp [blockUntilTargetSuccesses, SetOnce.isSet,
          SetOnce.get], ?_, ?_, ?_⟩
        · intro m hv hev
          simp [SetOnce.isSet] at hev
        · simp [blockUntilTargetSuccesses, SetOnce.isSet, SetOnce.get]
        · simp [blockUntilTargetSuccesses, SetOnce.isSet, SetOnce.get]
    | true =>
        refine ⟨by simp [blockUntilTargetSuccesses, SetOnce.isSet,
          SetOnce.get]; cases tval with
            | none => simp
            | some t => cases t <;> simp, ?_, ?_, ?_⟩
        · intro m hv _
          simp only at hv
          subst hv
          simp [blockUntilTargetSuccesses, SetOnce.isSet, SetOnce.get]
        · cases tval with
          | none =>
              simp [blockUntilTargetSuccesses, SetOnce.isSet, SetOnce.get]
          | some t =>
              cases t <;>
                simp [blockUntilTargetSuccesses, SetOnce.isSet, SetOnce.get]
        · cases tval with
          | none =>
              simp [blockUntilTargetSuccesses, SetOnce.isSet, SetOnce.get]
          | some t =>
              cases t <;>
                simp [blockUntilTargetSuccesses, SetOnce.isSet, SetOnce.get]
  · intro hset
    simp only [SetOnce.isSet] at hset
    subst hset
    exact ⟨rfl, rfl⟩

/-- Witness for the amended C1 at the state in which the timeout fired on
the fresh pool and no unexpected error is pending. -/
theorem block_translates_latch_witness :
    (timeoutThenErrorMid.unexpectedError.isSet = false ∧
      timeoutThenErrorMid.targetValue.isSet = true ∧
      timeoutThenErrorMid.targetValue.value
        = some TerminalValue.timeoutTriggered) ∧
      blockUntilTargetSuccesses timeoutThenErrorMid
        = some (.timedOut, timeoutThenErrorMid) := by
  refine ⟨⟨by decide, by decide, by decide⟩, ?_⟩
  exact (((block_translates_latch timeoutThenErrorMid).1
    (by decide)).2.2.1).2 ⟨by decide, by decide⟩

end Concurrency

namespace Concurrency

/-! ### C2: how often the producer error is surfaced

A run in which the producer errors out before submitting any work: the
error is latched, the sentinel posted and processed, the timeout thread
observes the cancel; the pool is fully wound down with the error still
latched. -/

/-- Producer errors out on the fresh pool. -/
def erroredRun1 : PoolState Nat Nat :=
  producerErrorStep "boom" PoolState.initState

/-- The sentinel is posted, the producer thread exits. -/
def erroredRun2 : PoolState Nat Nat := postSentinelStep erroredRun1

/-- The timeout thread observes the cancel event and exits. -/
def erroredRun3 : PoolState Nat Nat := timeoutObservesCancelStep erroredRun2

/-- The processor dequeues the sentinel; the drain rule fires
(`finished == started == 0`), the latch settles with `PRODUCER_STOPPED`
and the processor exits.  All three service threads are now done. -/
def erroredRun4 : PoolState Nat Nat :=
  processResult 1 { erroredRun3 with resultQueue := [] }
    Outcome.producerStopped

/-- `erroredRun4` after `join()` returned: marked stopped.  `join` raises
the wrapped error but reads it with `get()`, which does not clear it. -/
def erroredRunJoined : PoolState Nat Nat :=
  { erroredRun4 with stopped := true }

/-- `erroredRunJoined` after `block_until_target_successes()` consumed the
error latch. -/
def erroredRunDrained : PoolState Nat Nat :=
  { erroredRunJoined with unexpectedError := SetOnce.init }

/-- **C2, counterexample.** The claim says that if `join()` raises the
producer-side error first, no later call of either method raises it again.
In the fully wound-down reachable state `erroredRun4`, `join()` raises the
wrapped error — but it reads the latch with `get()`, which does not clear
it, so a later `block_until_target_successes()` finds the latch still set
and raises the same error a second time. -/
theorem join_then_block_raises_twice :
    Reachable 1 erroredRun4 ∧
      joinPool erroredRun4 = some (some (some "boom"), erroredRunJoined) ∧
      blockUntilTargetSuccesses erroredRunJoined
        = some (.runtimeError (some "boom"), erroredRunDrained) := by
  refine ⟨?_, by decide, by decide⟩
  refine Reachable.step (Reachable.step (Reachable.step
    (Reachable.step Reachable.init
      (Step.producerError _ "boom" rfl))
    (Step.postSentinel _ rfl rfl))
    (Step.timeoutObservesCancel _ rfl rfl)) ?_
  exact Step.processOne erroredRun3 Outcome.producerStopped [] rfl rfl

/-- **C2, amended.** A producer-side unexpected error is surfaced at most
once per call path: if `block_until_target_successes()` raises it first,
the error latch is atomically cleared, so a later `join()` never raises it;
and if `join()` raises it first, later `join()` calls return immediately
without raising — but a later `block_until_target_successes()` raises the
still-latched error once more, clearing it then. -/
theorem unexpected_error_surfacing {V R : Type} (s : PoolState V R) :
    (∀ (r : BlockResult V R) (s2 : PoolState V R),
      s.unexpectedError.isSet = true →
      blockUntilTargetSuccesses s = some (r, s2) →
      s2.unexpectedError.isSet = false ∧
        ∀ res : Option (Option String) × PoolState V R,
          joinPool s2 = some res → res.1 = none) ∧
    (s.stopped = true → joinPool s = some (none, s)) ∧
    (s.stopped = true → s.unexpectedError.isSet = true →
      blockUntilTargetSuccesses s
        = some (.runtimeError s.unexpectedError.value,
                { s with unexpectedError := SetOnce.init })) := by
  refine ⟨?_, ?_, ?_⟩
  · intro r s2 hset hblock
    simp only [blockUntilTargetSuccesses, hset, if_true,
      SetOnce.getAndClear, Option.some.injEq, Prod.mk.injEq] at hblock
    obtain ⟨-, hs2⟩ := hblock
    subst hs2
    refine ⟨rfl, ?_⟩
    intro res hjoin
    simp only [joinPool] at hjoin
    by_cases hstop : s.stopped = true
    · simp only [hstop, if_true, Option.some.injEq] at hjoin
      subst hjoin
      rfl
    · simp only [Bool.not_eq_true] at hstop
      simp only [hstop, Bool.false_eq_true, if_false] at hjoin
      by_cases hall : s.producerDone = true ∧ s.processorDone = true ∧
          s.timeoutDone = true
      · simp only [hall.1, hall.2.1, hall.2.2, and_self, if_true] at hjoin
        simp only [SetOnce.isSet, SetOnce.init] at hjoin
        simp only [Bool.false_eq_true, if_false, Option.some.injEq] at hjoin
        subst hjoin
        rfl
      · rw [if_neg] at hjoin
        · exact absurd hjoin (by simp)
        · intro hc
          exact hall ⟨hc.1, hc.2.1, hc.2.2⟩
  · intro hstop
    simp [joinPool, hstop]
  · intro hstop hset
    simp [blockUntilTargetSuccesses, hset, SetOnce.getAndClear,
      SetOnce.init]

/-- Witness for the amended C2 at the wound-down errored run: a stopped
pool's `join()` returns without raising, and the still-latched error is
raised (and cleared) by `block_until_target_successes()`. -/
theorem unexpected_error_surfacing_witness :
    (erroredRunJoined.stopped = true ∧
      erroredRunJoined.unexpectedError.isSet = true) ∧
      joinPool erroredRunJoined = some (none, erroredRunJoined) ∧
      blockUntilTargetSuccesses erroredRunJoined
        = some (.runtimeError erroredRunJoined.unexpectedError.value,
                { erroredRunJoined with unexpectedError := SetOnce.init }) := by
  refine ⟨⟨by decide, by decide⟩, ?_, ?_⟩
  · exact (unexpected_error_surfacing erroredRunJoined).2.1 (by decide)
  · exact (unexpected_error_surfacing erroredRunJoined).2.2
      (by decide) (by decide)

end Concurrency

namespace Concurrency

/-! ### C7: task accounting -/

/-- Number of genuine worker outcomes (non-sentinel entries) sitting in
the result queue. -/
def countResults {V R : Type} (q : List (Outcome V R)) : Nat :=
  (q.filter (fun o => !o.isSentinel)).length

theorem countResults_append {V R : Type} (q1 q2 : List (Outcome V R)) :
    countResults (q1 ++ q2) = countResults q1 + countResults q2 := by
  simp [countResults, List.filter_append]

/-- The global accounting: every started task is either finished, still
pending in the thread pool, or waiting as an outcome in the queue. -/
def accounted {V R : Type} (s : PoolState V R) : Prop :=
  s.startedTasks
    = s.finishedTasks + s.pending.length + countResults s.resultQueue

theorem checkDrain_startedTasks {V R : Type} (s : PoolState V R) :
    (checkDrain s).startedTasks = s.startedTasks := by
  unfold checkDrain; split <;> rfl

theorem checkDrain_finishedTasks {V R : Type} (s : PoolState V R) :
    (checkDrain s).finishedTasks = s.finishedTasks := by
  unfold checkDrain; split <;> rfl

theorem checkDrain_pending {V R : Type} (s : PoolState V R) :
    (checkDrain s).pending = s.pending := by
  unfold checkDrain; split <;> rfl

theorem checkDrain_resultQueue {V R : Type} (s : PoolState V R) :
    (checkDrain s).resultQueue = s.resultQueue := by
  unfold checkDrain; split <;> rfl

theorem checkDrain_successes {V R : Type} (s : PoolState V R) :
    (checkDrain s).successes = s.successes := by
  unfold checkDrain; split <;> rfl

theorem checkDrain_failures {V R : Type} (s : PoolState V R) :
    (checkDrain s).failures = s.failures := by
  unfold checkDrain; split <;> rfl

theorem processResult_startedTasks {V R : Type} [DecidableEq V]
    (target : Int) (s : PoolState V R) (r : Outcome V R) :
    (processResult target s r).startedTasks = s.startedTasks := by
  cases r with
  | success v r0 =>
      simp only [processResult]
      rw [checkDrain_startedTasks]
      split <;> rfl
  | failure v e => simp only [processResult]; rw [checkDrain_startedTasks]
  | cancelled => simp only [processResult]; rw [checkDrain_startedTasks]
  | producerStopped =>
      simp only [processResult]; rw [checkDrain_startedTasks]

theorem processResult_pending {V R : Type} [DecidableEq V]
    (target : Int) (s : PoolState V R) (r : Outcome V R) :
    (processResult target s r).pending = s.pending := by
  cases r with
  | success v r0 =>
      simp only [processResult]
      rw [checkDrain_pending]
      split <;> rfl
  | failure v e => simp only [processResult]; rw [checkDrain_pending]
  | cancelled => simp only [processResult]; rw [checkDrain_pending]
  | producerStopped => simp only [processResult]; rw [checkDrain_pending]

theorem processResult_resultQueue {V R : Type} [DecidableEq V]
    (target : Int) (s : PoolState V R) (r : Outcome V R) :
    (processResult target s r).resultQueue = s.resultQueue := by
  cases r with
  | success v r0 =>
      simp only [processResult]
      rw [checkDrain_resultQueue]
      split <;> rfl
  | failure v e => simp only [processResult]; rw [checkDrain_resultQueue]
  | cancelled => simp only [processResult]; rw [checkDrain_resultQueue]
  | producerStopped =>
      simp only [processResult]; rw [checkDrain_resultQueue]

theorem processResult_finishedTasks {V R : Type} [DecidableEq V]
    (target : Int) (s : PoolState V R) (r : Outcome V R) :
    (processResult target s r).finishedTasks
      = (if r.isSentinel then s.finishedTasks else s.finishedTasks + 1) := by
  cases r with
  | success v r0 =>
      show (processResult target s (Outcome.success v r0)).finishedTasks
        = s.finishedTasks + 1
      simp only [processResult]
      rw [checkDrain_finishedTasks]
      split <;> rfl
  | failure v e =>
      show (processResult target s (Outcome.failure v e)).finishedTasks
        = s.finishedTasks + 1
      simp only [processResult]
      rw [checkDrain_finishedTasks]
  | cancelled =>
      show (processResult target s Outcome.cancelled).finishedTasks
        = s.finishedTasks + 1
      simp only [processResult]
      rw [checkDrain_finishedTasks]
  | producerStopped =>
      show (processResult target s Outcome.producerStopped).finishedTasks
        = s.finishedTasks
      simp only [processResult]
      rw [checkDrain_finishedTasks]

theorem accounted_step {V R : Type} [DecidableEq V] {target : Int}
    {s s2 : PoolState V R} (h : Step target s s2) (ha : accounted s) :
    accounted s2 := by
  unfold accounted at ha ⊢
  cases h with
  | produce batch hb hp =>
      dsimp only [produceStep]
      simp only [List.length_append]
      omega
  | producerExit hp => exact ha
  | producerError e hp => exact ha
  | postSentinel hp h2 =>
      dsimp only [postSentinelStep]
      rw [countResults_append]
      have h0 : countResults (V := V) (R := R) [Outcome.producerStopped]
          = 0 := by
        simp [countResults, Outcome.isSentinel]
      omega
  | workerComplete l1 l2 v o hp ho =>
      have hone : countResults [o] = 1 := by
        cases o with
        | producerStopped => simp [outcomeForValue] at ho
        | success w r0 => simp [countResults, Outcome.isSentinel]
        | failure w e => simp [countResults, Outcome.isSentinel]
        | cancelled => simp [countResults, Outcome.isSentinel]
      rw [hp] at ha
      dsimp only [workerCompleteStep]
      rw [countResults_append, hone]
      simp only [List.length_append, List.length_cons] at ha ⊢
      omega
  | processOne r rest hq hp =>
      rw [processResult_startedTasks, processResult_pending,
        processResult_resultQueue, processResult_finishedTasks]
      rw [hq] at ha
      cases r with
      | producerStopped =>
          have h0 : countResults (V := V) (R := R)
              (Outcome.producerStopped :: rest) = countResults rest := by
            simp [countResults, Outcome.isSentinel]
          rw [h0] at ha
          show s.startedTasks
            = s.finishedTasks + s.pending.length + countResults rest
          omega
      | success v r0 =>
          have h1 : countResults (Outcome.success v r0 :: rest)
              = countResults rest + 1 := by
            simp [countResults, Outcome.isSentinel]
          rw [h1] at ha
          show s.startedTasks
            = s.finishedTasks + 1 + s.pending.length + countResults rest
          omega
      | failure v e =>
          have h1 : countResults (Outcome.failure v e :: rest)
              = countResults rest + 1 := by
            simp [countResults, Outcome.isSentinel]
          rw [h1] at ha
          show s.startedTasks
            = s.finishedTasks + 1 + s.pending.length + countResults rest
          omega
      | cancelled =>
          have h1 : countResults (Outcome.cancelled (V := V) (R := R) :: rest)
              = countResults rest + 1 := by
            simp [countResults, Outcome.isSentinel]
          rw [h1] at ha
          show s.startedTasks
            = s.finishedTasks + 1 + s.pending.length + countResults rest
          omega
  | timeoutFires hc h2 => exact ha
  | timeoutObservesCancel hc h2 => exact ha
  | cancelCall => exact ha

theorem reachable_accounted {V R : Type} [DecidableEq V] {target : Int}
    {s : PoolState V R} (h : Reachable target s) : accounted s := by
  induction h with
  | init => rfl
  | step hr hstep ih => exact accounted_step hstep ih

/-- **C7.** In every reachable state of a pool run,
`finished_tasks ≤ started_tasks`; and at quiescence — the `ProducerDone`
sentinel has been observed by the processor and the result queue is
drained, meaning no submitted task is still pending an outcome and the
queue is empty — `finished_tasks = started_tasks`. -/
theorem finished_le_started {V R : Type} [DecidableEq V] (target : Int)
    (s : PoolState V R) (h : Reachable target s) :
    s.finishedTasks ≤ s.startedTasks ∧
      (s.producerStoppedFlag = true → s.pending = [] → s.resultQueue = [] →
        s.finishedTasks = s.startedTasks) := by
  have ha := reachable_accounted h
  unfold accounted at ha
  constructor
  · omega
  · intro hflag hpend hq
    rw [hpend, hq] at ha
    have h0 : countResults (V := V) (R := R) [] = 0 := rfl
    simp only [List.length_nil] at ha
    omega

/-- A fully drained run reached by: producer exits with no values, posts
the sentinel, the processor dequeues it and the drain rule fires. -/
def quiescentRun : PoolState Nat Nat :=
  processResult 0
    { postSentinelStep (producerExitStep PoolState.initState) with
        resultQueue := [] }
    Outcome.producerStopped

theorem quiescentRun_reachable : Reachable 0 quiescentRun := by
  refine Reachable.step (Reachable.step (Reachable.step Reachable.init
    (Step.producerExit _ rfl)) (Step.postSentinel _ rfl rfl)) ?_
  exact Step.processOne (postSentinelStep
    (producerExitStep PoolState.initState)) Outcome.producerStopped [] rfl rfl

theorem finished_le_started_witness :
    (quiescentRun.producerStoppedFlag = true ∧
      quiescentRun.pending = [] ∧ quiescentRun.resultQueue = []) ∧
      quiescentRun.finishedTasks ≤ quiescentRun.startedTasks ∧
      quiescentRun.finishedTasks = quiescentRun.startedTasks := by
  refine ⟨⟨by decide, by decide, by decide⟩, ?_, ?_⟩
  · exact (finished_le_started 0 quiescentRun quiescentRun_reachable).1
  · exact (finished_le_started 0 quiescentRun quiescentRun_reachable).2
      (by decide) (by decide) (by decide)

end Concurrency

namespace Concurrency

/-! ### C8: success/failure map evolution -/

theorem processResult_successes_success {V R : Type} [DecidableEq V]
    (target : Int) (s : PoolState V R) (v : V) (r0 : R) :
    (processResult target s (Outcome.success v r0)).successes
      = dinsert s.successes v r0 := by
  simp only [processResult]
  rw [checkDrain_successes]
  split <;> rfl

theorem processResult_failures_success {V R : Type} [DecidableEq V]
    (target : Int) (s : PoolState V R) (v : V) (r0 : R) :
    (processResult target s (Outcome.success v r0)).failures
      = s.failures := by
  simp only [processResult]
  rw [checkDrain_failures]
  split <;> rfl

theorem processResult_failures_failure {V R : Type} [DecidableEq V]
    (target : Int) (s : PoolState V R) (v : V) (e : String) :
    (processResult target s (Outcome.failure v e)).failures
      = dinsert s.failures v e := by
  simp only [processResult]
  rw [checkDrain_failures]

theorem processResult_successes_failure {V R : Type} [DecidableEq V]
    (target : Int) (s : PoolState V R) (v : V) (e : String) :
    (processResult target s (Outcome.failure v e)).successes
      = s.successes := by
  simp only [processResult]
  rw [checkDrain_successes]

theorem processResult_maps_cancelled {V R : Type} [DecidableEq V]
    (target : Int) (s : PoolState V R) :
    (processResult target s Outcome.cancelled).successes = s.successes ∧
      (processResult target s Outcome.cancelled).failures = s.failures := by
  constructor
  · simp only [processResult]; rw [checkDrain_successes]
  · simp only [processResult]; rw [checkDrain_failures]

theorem processResult_maps_sentinel {V R : Type} [DecidableEq V]
    (target : Int) (s : PoolState V R) :
    (processResult target s Outcome.producerStopped).successes
        = s.successes ∧
      (processResult target s Outcome.producerStopped).failures
        = s.failures := by
  constructor
  · simp only [processResult]; rw [checkDrain_successes]
  · simp only [processResult]; rw [checkDrain_failures]

/-- **C8, amended.** Along every transition of a pool run, the size of the
map returned by `get_successes()` is non-decreasing and so is the size of
the map returned by `get_failures()`; and each transition changes at most
one of the two maps (a single outcome is filed in exactly one of them).
The key sets need not be disjoint once the factory emits a value more than
once: a value whose invocations both succeed and fail ends up in both
maps. -/
theorem maps_monotone {V R : Type} [DecidableEq V] (target : Int)
    (s s2 : PoolState V R) (h : Step target s s2) :
    (getSuccesses s).length ≤ (getSuccesses s2).length ∧
      (getFailures s).length ≤ (getFailures s2).length ∧
      (getSuccesses s2 ≠ getSuccesses s → getFailures s2 = getFailures s) ∧
      (getFailures s2 ≠ getFailures s → getSuccesses s2 = getSuccesses s) := by
  cases h with
  | produce batch hb hp =>
      exact ⟨Nat.le_refl _, Nat.le_refl _, fun _ => rfl, fun _ => rfl⟩
  | producerExit hp =>
      exact ⟨Nat.le_refl _, Nat.le_refl _, fun _ => rfl, fun _ => rfl⟩
  | producerError e hp =>
      exact ⟨Nat.le_refl _, Nat.le_refl _, fun _ => rfl, fun _ => rfl⟩
  | postSentinel hp h2 =>
      exact ⟨Nat.le_refl _, Nat.le_refl _, fun _ => rfl, fun _ => rfl⟩
  | workerComplete l1 l2 v o hp ho =>
      exact ⟨Nat.le_refl _, Nat.le_refl _, fun _ => rfl, fun _ => rfl⟩
  | timeoutFires hc h2 =>
      exact ⟨Nat.le_refl _, Nat.le_refl _, fun _ => rfl, fun _ => rfl⟩
  | timeoutObservesCancel hc h2 =>
      exact ⟨Nat.le_refl _, Nat.le_refl _, fun _ => rfl, fun _ => rfl⟩
  | cancelCall =>
      exact ⟨Nat.le_refl _, Nat.le_refl _, fun _ => rfl, fun _ => rfl⟩
  | processOne r rest hq hp =>
      cases r with
      | success v r0 =>
          rw [show getSuccesses (processResult target
                { s with resultQueue := rest } (Outcome.success v r0))
              = dinsert s.successes v r0 from
            processResult_successes_success target _ v r0,
            show getFailures (processResult target
                { s with resultQueue := rest } (Outcome.success v r0))
              = s.failures from
            processResult_failures_success target _ v r0]
          exact ⟨dinsert_le_length _ _ _, Nat.le_refl _,
            fun _ => rfl, fun hne => absurd rfl hne⟩
      | failure v e =>
          rw [show getSuccesses (processResult target
                { s with resultQueue := rest } (Outcome.failure v e))
              = s.successes from
            processResult_successes_failure target _ v e,
            show getFailures (processResult target
                { s with resultQueue := rest } (Outcome.failure v e))
              = dinsert s.failures v e from
            processResult_failures_failure target _ v e]
          exact ⟨Nat.le_refl _, dinsert_le_length _ _ _,
            fun hne => absurd rfl hne, fun _ => rfl⟩
      | cancelled =>
          obtain ⟨h1, h2⟩ :=
            processResult_maps_cancelled target { s with resultQueue := rest }
          rw [show getSuccesses (processResult target
                { s with resultQueue := rest } Outcome.cancelled)
              = s.successes from h1,
            show getFailures (processResult target
                { s with resultQueue := rest } Outcome.cancelled)
              = s.failures from h2]
          exact ⟨Nat.le_refl _, Nat.le_refl _, fun _ => rfl, fun _ => rfl⟩
      | producerStopped =>
          obtain ⟨h1, h2⟩ :=
            processResult_maps_sentinel target { s with resultQueue := rest }
          rw [show getSuccesses (processResult target
                { s with resultQueue := rest } Outcome.producerStopped)
              = s.successes from h1,
            show getFailures (processResult target
                { s with resultQueue := rest } Outcome.producerStopped)
              = s.failures from h2]
          exact ⟨Nat.le_refl _, Nat.le_refl _, fun _ => rfl, fun _ => rfl⟩

end Concurrency

namespace Concurrency

/-- State with one success outcome queued, used to exercise the processor
on a single transition. -/
def oneSuccessQueued : PoolState Nat Nat :=
  { PoolState.initState with resultQueue := [Outcome.success 1 1] }

theorem maps_monotone_witness :
    (getSuccesses oneSuccessQueued).length
        ≤ (getSuccesses (processResult 3
            { oneSuccessQueued with resultQueue := [] }
            (Outcome.success 1 1))).length ∧
      (getFailures oneSuccessQueued).length
        ≤ (getFailures (processResult 3
            { oneSuccessQueued with resultQueue := [] }
            (Outcome.success 1 1))).length := by
  have h := maps_monotone 3 oneSuccessQueued
    (processResult 3 { oneSuccessQueued with resultQueue := [] }
      (Outcome.success 1 1))
    (Step.processOne oneSuccessQueued (Outcome.success 1 1) [] rfl rfl)
  exact ⟨h.1, h.2.1⟩

/-! The duplicate-value run refuting disjointness: the factory emits the
value `1` twice (`AllAtOnceFactory([1, 1])` does exactly this), the worker
— an opaque, possibly stateful callable — succeeds on the first invocation
and raises on the second. -/

/-- The producer submits the batch `[1, 1]`. -/
def dupRun1 : PoolState Nat Nat := produceStep [1, 1] PoolState.initState

/-- The first wrapper invocation for `1` posts `Success(1, 1)`. -/
def dupRun2 : PoolState Nat Nat :=
  workerCompleteStep [] [1] (Outcome.success 1 1) dupRun1

/-- The processor files the success. -/
def dupRun3 : PoolState Nat Nat :=
  processResult 5 { dupRun2 with resultQueue := [] } (Outcome.success 1 1)

/-- The second wrapper invocation for `1` posts `Failure(1, "boom")`. -/
def dupRun4 : PoolState Nat Nat :=
  workerCompleteStep [] [] (Outcome.failure 1 "boom") dupRun3

/-- The processor files the failure; the key `1` is now in both maps. -/
def dupRun5 : PoolState Nat Nat :=
  processResult 5 { dupRun4 with resultQueue := [] } (Outcome.failure 1 "boom")

/-- **C8, counterexample.** The claim says the key sets of the success and
failure maps are disjoint, including runs in which the factory emits the
same value more than once.  In the reachable run where the value `1` is
emitted twice, succeeds once and fails once, the key `1` ends up in both
maps: the processor only ever inserts (lines 243-254), never removes. -/
theorem success_and_failure_share_key :
    Reachable 5 dupRun5 ∧
      getSuccesses dupRun5 = [(1, 1)] ∧
      getFailures dupRun5 = [(1, "boom")] ∧
      ((getSuccesses dupRun5).lookup 1).isSome = true ∧
      ((getFailures dupRun5).lookup 1).isSome = true := by
  refine ⟨?_, by decide, by decide, by decide, by decide⟩
  refine Reachable.step (Reachable.step (Reachable.step (Reachable.step
    (Reachable.step Reachable.init
      (Step.produce _ [1, 1] (by decide) rfl))
    (Step.workerComplete _ [] [1] 1 (Outcome.success 1 1) rfl rfl))
    (Step.processOne dupRun2 (Outcome.success 1 1) [] rfl rfl))
    (Step.workerComplete _ [] [] 1 (Outcome.failure 1 "boom") rfl rfl)) ?_
  exact Step.processOne dupRun4 (Outcome.failure 1 "boom") [] rfl rfl

/-! ### C10: a non-positive success target can never settle the latch
with a success snapshot -/

/-- The latch has not been settled with a success snapshot. -/
def latchSafe {V R : Type} (s : PoolState V R) : Prop :=
  ∀ m : List (V × R), s.targetValue.value ≠ some (TerminalValue.snapshot m)

theorem setOnce_set_nonsnapshot {V R : Type}
    (tv : SetOnce (TerminalValue V R)) (v : TerminalValue V R)
    (hv : ∀ m : List (V × R), v ≠ .snapshot m)
    (htv : ∀ m : List (V × R), tv.value ≠ some (.snapshot m)) :
    ∀ m : List (V × R), (tv.set v).value ≠ some (.snapshot m) := by
  intro m
  unfold SetOnce.set
  split
  · exact htv m
  · intro hc
    simp only [Option.some.injEq] at hc
    exact hv m hc

theorem checkDrain_latchSafe {V R : Type} (s : PoolState V R)
    (hs : ∀ m : List (V × R), s.targetValue.value ≠ some (.snapshot m)) :
    ∀ m : List (V × R),
      (checkDrain s).targetValue.value ≠ some (.snapshot m) := by
  unfold checkDrain
  split
  · exact setOnce_set_nonsnapshot _ _
      (fun m h => TerminalValue.noConfusion h) hs
  · exact hs

theorem processResult_latchSafe_nonpos {V R : Type} [DecidableEq V]
    {target : Int} (ht : target ≤ 0) (s : PoolState V R) (r : Outcome V R)
    (hs : ∀ m : List (V × R), s.targetValue.value ≠ some (.snapshot m)) :
    ∀ m : List (V × R),
      (processResult target s r).targetValue.value ≠ some (.snapshot m) := by
  cases r with
  | success v r0 =>
      simp only [processResult]
      apply checkDrain_latchSafe
      intro m
      split
      case isTrue hcond =>
          exfalso
          have h1 := dinsert_length_pos s.successes v r0
          have h2 := hcond.2
          omega
      case isFalse hcond => exact hs m
  | failure v e =>
      simp only [processResult]
      exact checkDrain_latchSafe _ hs
  | cancelled =>
      simp only [processResult]
      exact checkDrain_latchSafe _ hs
  | producerStopped =>
      simp only [processResult]
      exact checkDrain_latchSafe _ hs

theorem latchSafe_step {V R : Type} [DecidableEq V] {target : Int}
    (ht : target ≤ 0) {s s2 : PoolState V R} (h : Step target s s2)
    (hs : latchSafe s) : latchSafe s2 := by
  cases h with
  | produce batch hb hp => exact hs
  | producerExit hp => exact hs
  | producerError e hp => exact hs
  | postSentinel hp h2 => exact hs
  | workerComplete l1 l2 v o hp ho => exact hs
  | processOne r rest hq hp =>
      exact processResult_latchSafe_nonpos ht _ r hs
  | timeoutFires hc h2 =>
      exact setOnce_set_nonsnapshot _ _
        (fun m h => TerminalValue.noConfusion h) hs
  | timeoutObservesCancel hc h2 => exact hs
  | cancelCall => exact hs

theorem reachable_latchSafe {V R : Type} [DecidableEq V] {target : Int}
    (ht : target ≤ 0) {s : PoolState V R} (h : Reachable target s) :
    latchSafe s := by
  induction h with
  | init => intro m hc; exact Option.noConfusion hc
  | step hr hstep ih => exact latchSafe_step ht hstep ih

/-- **C10.** The constructor performs no validation (`Reachable` and the
whole development are defined for every `target_successes : Int`), and the
success-path settlement fires only when the success-dict size equals
`target_successes` right after an insertion (line 247) — a size that is
then at least 1.  Hence a pool constructed with `target_successes ≤ 0` is
never settled with a success snapshot: in every reachable state its
terminal latch is unset or settled with `TIMEOUT_TRIGGERED` or
`PRODUCER_STOPPED`, so it can terminate only via timeout or producer
exhaustion. -/
theorem nonpositive_target_never_succeeds {V R : Type} [DecidableEq V]
    (target : Int) (s : PoolState V R) (ht : target ≤ 0)
    (h : Reachable target s) :
    s.targetValue.value = none ∨
      s.targetValue.value = some TerminalValue.timeoutTriggered ∨
      s.targetValue.value = some TerminalValue.producerStopped := by
  have hs := reachable_latchSafe ht h
  cases hv : s.targetValue.value with
  | none => exact Or.inl rfl
  | some tv =>
      cases tv with
      | snapshot m => exact absurd hv (hs m)
      | timeoutTriggered => exact Or.inr (Or.inl rfl)
      | producerStopped => exact Or.inr (Or.inr rfl)

theorem nonpositive_target_never_succeeds_witness :
    ((0 : Int) ≤ 0) ∧
      (quiescentRun.targetValue.value = none ∨
        quiescentRun.targetValue.value
          = some TerminalValue.timeoutTriggered ∨
        quiescentRun.targetValue.value
          = some TerminalValue.producerStopped) :=
  ⟨by decide,
    nonpositive_target_never_succeeds 0 quiescentRun (by decide)
      quiescentRun_reachable⟩

end Concurrency

namespace Concurrency

/-! ### C4: the identity round-trip

`AllAtOnceFactory` (lines 290-304) emits all its values in one batch and
then signals exhaustion; the canonical sequential schedule below is the
run in which it feeds `[1..n]` to an identity worker, each wrapper posts
its success, the processor files it at once, and the producer then
exhausts. -/

/-- `AllAtOnceFactory.__init__` and its single-batch state. -/
structure AllAtOnceFactory (V : Type) where
  values : List V
  produced : Bool

/-- `AllAtOnceFactory.__call__(_successes)`: the whole list on the first
call, `None` afterwards. -/
def AllAtOnceFactory.call {V : Type} (f : AllAtOnceFactory V)
    (_successes : Nat) : Option (List V) × AllAtOnceFactory V :=
  if f.produced then (none, f)
  else (some f.values, { f with produced := true })

theorem allAtOnce_first_then_none {V : Type} (vs : List V) (c c2 : Nat) :
    (AllAtOnceFactory.mk vs false).call c = (some vs, ⟨vs, true⟩) ∧
      (AllAtOnceFactory.mk vs true).call c2 = (none, ⟨vs, true⟩) := by
  exact ⟨rfl, rfl⟩

/-- The success dict an identity worker builds from inputs
`a, a+1, …, a+k-1`. -/
def pairs (a k : Nat) : List (Nat × Nat) :=
  (List.range' a k).map (fun i => (i, i))

theorem pairs_length (a k : Nat) : (pairs a k).length = k := by
  simp [pairs]

theorem pairs_concat (k : Nat) :
    pairs 1 k ++ [(k + 1, k + 1)] = pairs 1 (k + 1) := by
  unfold pairs
  rw [List.range'_concat, List.map_append]
  simp [Nat.add_comm]

theorem pairs_lookup_ge (a k x : Nat) (hx : a + k ≤ x) :
    (pairs a k).lookup x = none := by
  induction k generalizing a with
  | zero => rfl
  | succ k ih =>
      unfold pairs
      rw [List.range'_succ, List.map_cons]
      have hne : (x == a) = false := by
        simp only [beq_eq_false_iff_ne, ne_eq]
        omega
      simp only [List.lookup, hne]
      exact ih (a + 1) (by omega)

end Concurrency

namespace Concurrency

/-- The terminal latch of the sequential identity run after `j` successes:
settled with the snapshot taken at the moment the success count reached
`target_successes`, unsettled otherwise. -/
def latchAt (target : Int) (j : Nat) : SetOnce (TerminalValue Nat Nat) :=
  if 1 ≤ target ∧ target ≤ (j : Int) then
    ⟨some (.snapshot (pairs 1 target.toNat)), true⟩
  else SetOnce.init

/-- The processor-local `success_event_reached` flag after `j` successes. -/
def reachedAt (target : Int) (j : Nat) : Bool :=
  decide (1 ≤ target ∧ target ≤ (j : Int))

theorem latchAt_pos {target : Int} {j : Nat}
    (h : 1 ≤ target ∧ target ≤ (j : Int)) :
    latchAt target j = ⟨some (.snapshot (pairs 1 target.toNat)), true⟩ := by
  unfold latchAt
  rw [if_pos h]

theorem latchAt_neg {target : Int} {j : Nat}
    (h : ¬ (1 ≤ target ∧ target ≤ (j : Int))) :
    latchAt target j = SetOnce.init := by
  unfold latchAt
  rw [if_neg h]

theorem reachedAt_pos {target : Int} {j : Nat}
    (h : 1 ≤ target ∧ target ≤ (j : Int)) : reachedAt target j = true := by
  unfold reachedAt
  exact decide_eq_true h

theorem reachedAt_neg {target : Int} {j : Nat}
    (h : ¬ (1 ≤ target ∧ target ≤ (j : Int))) :
    reachedAt target j = false := by
  unfold reachedAt
  exact decide_eq_false h

/-- The pool state of the sequential identity run on inputs `[1..n]` after
the single batch was produced and the first `j` values have completed and
been processed. -/
def midState (n : Nat) (target : Int) (j : Nat) : PoolState Nat Nat where
  successes := pairs 1 j
  failures := []
  startedTasks := n
  finishedTasks := j
  cancelEvent := false
  resultQueue := []
  targetValue := latchAt target j
  unexpectedError := SetOnce.init
  stopped := false
  producerStoppedFlag := false
  successEventReached := reachedAt target j
  pending := List.range' (j + 1) (n - j)
  producerLoopDone := false
  producerDone := false
  processorDone := false
  timeoutDone := false

/-- Processing `Success(j+1, j+1)` moves the sequential run from stage `j`
to stage `j+1`. -/
theorem midStep (n : Nat) (target : Int) (j : Nat) (hj : j < n) :
    processResult target
        { midState n target j with
            pending := List.range' (j + 2) (n - (j + 1)) }
        (Outcome.success (j + 1) (j + 1))
      = midState n target (j + 1) := by
  have hfresh : (pairs 1 j).lookup (j + 1) = none :=
    pairs_lookup_ge 1 j (j + 1) (by omega)
  have hsucc : dinsert (pairs 1 j) (j + 1) (j + 1) = pairs 1 (j + 1) := by
    rw [dinsert_fresh _ _ _ hfresh, pairs_concat]
  simp only [processResult, checkDrain, midState, hsucc]
  by_cases hA : 1 ≤ target ∧ target ≤ (j : Int)
  · have hA2 : 1 ≤ target ∧ target ≤ ((j + 1 : Nat) : Int) :=
      ⟨hA.1, by push_cast; omega⟩
    rw [reachedAt_pos hA, reachedAt_pos hA2, latchAt_pos hA, latchAt_pos hA2]
    simp
  · by_cases hB : ((j + 1 : Nat) : Int) = target
    · have hA2 : 1 ≤ target ∧ target ≤ ((j + 1 : Nat) : Int) := by
        constructor <;> [skip; omega]
        omega
      have htn : target.toNat = j + 1 := by omega
      rw [reachedAt_neg hA, reachedAt_pos hA2, latchAt_neg hA,
        latchAt_pos hA2, htn]
      rw [pairs_length]
      simp only [Bool.false_eq_true, not_false_eq_true, true_and, hB,
        if_true]
      simp [SetOnce.set, SetOnce.init]
    · have hA2 : ¬ (1 ≤ target ∧ target ≤ ((j + 1 : Nat) : Int)) := by
        intro hc
        rcases hc with ⟨h1, h2⟩
        apply hB
        push_cast at h2 ⊢
        by_cases hle : target ≤ (j : Int)
        · exact absurd ⟨h1, hle⟩ hA
        · omega
      rw [reachedAt_neg hA, reachedAt_neg hA2, latchAt_neg hA,
        latchAt_neg hA2]
      rw [pairs_length]
      simp only [Bool.false_eq_true, not_false_eq_true, true_and]
      rw [if_neg hB]
      simp

end Concurrency

namespace Concurrency

theorem checkDrain_unexpectedError {V R : Type} (s : PoolState V R) :
    (checkDrain s).unexpectedError = s.unexpectedError := by
  unfold checkDrain; split <;> rfl

theorem produce_eq_mid (n : Nat) (target : Int) :
    produceStep (List.range' 1 n) PoolState.initState
      = midState n target 0 := by
  have h1 : ¬ (1 ≤ target ∧ target ≤ ((0 : Nat) : Int)) := by
    rintro ⟨a, b⟩
    simp only [Nat.cast_zero] at b
    omega
  simp [produceStep, PoolState.initState, midState, latchAt_neg h1,
    reachedAt_neg h1]
  rfl

theorem mid_reach_succ (n : Nat) (target : Int) (j : Nat) (hj : j < n)
    (hr : Reachable target (midState n target j)) :
    Reachable target (midState n target (j + 1)) := by
  have hpend : (midState n target j).pending
      = [] ++ (j + 1) :: List.range' (j + 2) (n - (j + 1)) := by
    show List.range' (j + 1) (n - j) = _
    have h1 : n - j = (n - (j + 1)) + 1 := by omega
    rw [h1, List.range'_succ]
    rfl
  have h1 : Reachable target
      (workerCompleteStep [] (List.range' (j + 2) (n - (j + 1)))
        (Outcome.success (j + 1) (j + 1)) (midState n target j)) :=
    Reachable.step hr
      (Step.workerComplete _ [] _ (j + 1) _ hpend rfl)
  have h2 := Reachable.step h1
    (Step.processOne (workerCompleteStep []
        (List.range' (j + 2) (n - (j + 1)))
        (Outcome.success (j + 1) (j + 1)) (midState n target j))
      (Outcome.success (j + 1) (j + 1)) [] rfl rfl)
  have h0 : ({ workerCompleteStep [] (List.range' (j + 2) (n - (j + 1)))
        (Outcome.success (j + 1) (j + 1)) (midState n target j) with
          resultQueue := [] } : PoolState Nat Nat)
      = { midState n target j with
            pending := List.range' (j + 2) (n - (j + 1)) } := rfl
  have hfinal : processResult target
      { workerCompleteStep [] (List.range' (j + 2) (n - (j + 1)))
          (Outcome.success (j + 1) (j + 1)) (midState n target j) with
            resultQueue := [] }
      (Outcome.success (j + 1) (j + 1)) = midState n target (j + 1) := by
    rw [h0]
    exact midStep n target j hj
  exact hfinal ▸ h2

theorem mid_reach (n : Nat) (target : Int) (hn : 1 ≤ n) :
    ∀ j, j ≤ n → Reachable target (midState n target j) := by
  intro j
  induction j with
  | zero =>
      intro _
      have h := Reachable.step
        (Reachable.init :
          Reachable target (PoolState.initState (V := Nat) (R := Nat)))
        (Step.produce PoolState.initState (List.range' 1 n)
          (by
            intro hc
            have : (List.range' 1 n).length = 0 := by rw [hc]; rfl
            simp only [List.length_range'] at this
            omega)
          rfl)
      exact (produce_eq_mid n target) ▸ h
  | succ j ih =>
      intro hj
      exact mid_reach_succ n target j (by omega) (ih (by omega))

/-- The final state of the canonical sequential identity run on `[1..n]`:
all `n` successes processed in order, the producer exhausted, the sentinel
processed, the drain rule fired. -/
def seqRun (n : Nat) (target : Int) : PoolState Nat Nat :=
  processResult target
    { postSentinelStep (producerExitStep (midState n target n)) with
        resultQueue := [] }
    Outcome.producerStopped

theorem seqRun_reachable (n : Nat) (target : Int) (hn : 1 ≤ n) :
    Reachable target (seqRun n target) := by
  have hmid := mid_reach n target hn n (Nat.le_refl n)
  have h1 := Reachable.step hmid (Step.producerExit _ rfl)
  have h2 := Reachable.step h1 (Step.postSentinel _ rfl rfl)
  exact Reachable.step h2
    (Step.processOne (postSentinelStep (producerExitStep
      (midState n target n))) Outcome.producerStopped [] rfl rfl)

theorem seqRun_fields (n : Nat) (target : Int) :
    getSuccesses (seqRun n target) = pairs 1 n ∧
      (seqRun n target).unexpectedError = SetOnce.init ∧
      (seqRun n target).targetValue
        = SetOnce.set (latchAt target n) TerminalValue.producerStopped := by
  refine ⟨?_, ?_, ?_⟩
  · show (processResult target _ Outcome.producerStopped).successes = _
    simp only [processResult]
    rw [checkDrain_successes]
    rfl
  · show (processResult target _ Outcome.producerStopped).unexpectedError = _
    simp only [processResult]
    rw [checkDrain_unexpectedError]
    rfl
  · show (processResult target _ Outcome.producerStopped).targetValue = _
    simp only [processResult]
    unfold checkDrain
    rw [if_pos ⟨rfl, rfl⟩]
    rfl

theorem seqRun_block_out (n : Nat) (target : Int)
    (h : ¬ (1 ≤ target ∧ target ≤ (n : Int))) :
    blockUntilTargetSuccesses (seqRun n target)
      = some (.outOfValues, seqRun n target) := by
  obtain ⟨hs, hu, ht⟩ := seqRun_fields n target
  simp [blockUntilTargetSuccesses, hu, ht, latchAt_neg h, SetOnce.set,
    SetOnce.init, SetOnce.isSet, SetOnce.get]

theorem seqRun_block_ret (n : Nat) (target : Int)
    (h : 1 ≤ target ∧ target ≤ (n : Int)) :
    blockUntilTargetSuccesses (seqRun n target)
      = some (.returned (some (pairs 1 target.toNat)), seqRun n target) := by
  obtain ⟨hs, hu, ht⟩ := seqRun_fields n target
  simp [blockUntilTargetSuccesses, hu, ht, latchAt_pos h, SetOnce.set,
    SetOnce.init, SetOnce.isSet, SetOnce.get]

end Concurrency

namespace Concurrency

/-- **C4, counterexample.** The claim says that with the identity worker
on `[1..N]`, `target_successes ≥ N` makes the pool terminate via
`OutOfValues`.  At the boundary `N = 1`, `target_successes = 1`, the
`N`-th success reaches the target first: the latch is settled with the
snapshot `{1: 1}` (line 251) before the drain rule can settle it with
`PRODUCER_STOPPED` (a no-op on the settled latch), so
`block_until_target_successes()` returns the full map instead of raising
`OutOfValues`. -/
theorem target_equal_n_returns_map :
    blockUntilTargetSuccesses (seqRun 1 1)
        = some (.returned (some [(1, 1)]), seqRun 1 1) ∧
      blockUntilTargetSuccesses (seqRun 1 1)
        ≠ some (.outOfValues, seqRun 1 1) ∧
      Reachable 1 (seqRun 1 1) := by
  refine ⟨by decide, by decide, ?_⟩
  exact seqRun_reachable 1 1 (by decide)

/-- **C4, amended.** For every `N ≥ 1`, with the worker equal to the
identity function and a factory yielding the values `1..N` in one batch
(`AllAtOnceFactory`), the canonical sequential run `seqRun` is a run of
the pool (it is reachable) whose success dict is `{i: i for i in 1..N}`;
when `target_successes > N` or `target_successes ≤ 0` the pool terminates
via `OutOfValues` with that full dict visible, and when
`1 ≤ target_successes ≤ N` (reaching the target counts as success)
`block_until_target_successes()` returns a dict containing at least
`target_successes` entries. -/
theorem identity_roundtrip (n : Nat) (target : Int) (hn : 1 ≤ n) :
    Reachable target (seqRun n target) ∧
      getSuccesses (seqRun n target) = pairs 1 n ∧
      ((n : Int) < target ∨ target ≤ 0 →
        blockUntilTargetSuccesses (seqRun n target)
          = some (.outOfValues, seqRun n target)) ∧
      (1 ≤ target → target ≤ (n : Int) →
        blockUntilTargetSuccesses (seqRun n target)
            = some (.returned (some (pairs 1 target.toNat)), seqRun n target)
          ∧ target ≤ ((pairs 1 target.toNat).length : Int)) := by
  refine ⟨seqRun_reachable n target hn, (seqRun_fields n target).1, ?_, ?_⟩
  · intro hcase
    apply seqRun_block_out
    rintro ⟨h1, h2⟩
    rcases hcase with hlt | hle <;> omega
  · intro h1 h2
    refine ⟨seqRun_block_ret n target ⟨h1, h2⟩, ?_⟩
    rw [pairs_length]
    omega

theorem identity_roundtrip_witness :
    ((1 : Nat) ≤ 2 ∧ ((2 : Nat) : Int) < 5 ∧ (1 : Int) ≤ 1 ∧
        (1 : Int) ≤ ((2 : Nat) : Int)) ∧
      getSuccesses (seqRun 2 5) = pairs 1 2 ∧
      blockUntilTargetSuccesses (seqRun 2 5)
        = some (.outOfValues, seqRun 2 5) ∧
      blockUntilTargetSuccesses (seqRun 2 1)
        = some (.returned (some (pairs 1 (1 : Int).toNat)), seqRun 2 1) := by
  refine ⟨⟨by decide, by decide, by decide, by decide⟩, ?_, ?_, ?_⟩
  · exact (identity_roundtrip 2 5 (by decide)).2.1
  · exact (identity_roundtrip 2 5 (by decide)).2.2.1 (Or.inl (by decide))
  · exact ((identity_roundtrip 2 1 (by decide)).2.2.2 (by decide)
      (by decide)).1

end Concurrency
